import Mathlib

/-
Verification of the tensortrade action-to-trade translation layer.

Source files embedded here:
  - tensortrade/exchanges/exchange.py            (class Exchange)
  - tensortrade/actions/discrete_actions.py      (class DiscreteActions)
  - tensortrade/actions/target_stop_action_strategy.py
                                                 (class TargetStopActionStrategy)

Numbers are embedded as rationals; the Python built-in round (banker
rounding to a number of decimal places) is embedded as pyRound below.
Crashing code paths (Python exceptions) are embedded with Except.
-/

namespace TensorTrade

/-! ### Python rounding

Python round(x, p) rounds x to p decimal places, ties going to the even
integer multiple of 10 ^ (-p). -/

/-- Round a rational to the nearest integer, ties to even. -/
def halfEven (y : ℚ) : ℤ :=
  if y - ⌊y⌋ < 1/2 then ⌊y⌋
  else if 1/2 < y - ⌊y⌋ then ⌊y⌋ + 1
  else if ⌊y⌋ % 2 = 0 then ⌊y⌋ else ⌊y⌋ + 1

/-- Embedding of the Python built-in round(x, p) for a non-negative
number of decimal places p. -/
def pyRound (x : ℚ) (p : ℕ) : ℚ :=
  (halfEven (x * 10 ^ p) : ℚ) / 10 ^ p

theorem halfEven_le (y : ℚ) : (halfEven y : ℚ) ≤ y + 1/2 := by
  unfold halfEven
  have hfl : (⌊y⌋ : ℚ) ≤ y := Int.floor_le y
  have hfl2 : y < (⌊y⌋ : ℚ) + 1 := Int.lt_floor_add_one y
  split_ifs with h1 h2 h3 <;> push_cast <;> linarith

theorem le_halfEven (y : ℚ) : y - 1/2 ≤ (halfEven y : ℚ) := by
  unfold halfEven
  have hfl : (⌊y⌋ : ℚ) ≤ y := Int.floor_le y
  have hfl2 : y < (⌊y⌋ : ℚ) + 1 := Int.lt_floor_add_one y
  split_ifs with h1 h2 h3 <;> push_cast <;> linarith

theorem halfEven_intCast (k : ℤ) : halfEven (k : ℚ) = k := by
  unfold halfEven
  rw [Int.floor_intCast]
  have h : ((k : ℚ) - (k : ℚ)) < 1/2 := by norm_num
  simp [h]

theorem pyRound_le (x : ℚ) (p : ℕ) : pyRound x p ≤ x + 1 / (2 * 10 ^ p) := by
  unfold pyRound
  have h10 : (0:ℚ) < 10 ^ p := by positivity
  rw [div_le_iff₀ h10]
  have h := halfEven_le (x * 10 ^ p)
  calc (halfEven (x * 10 ^ p) : ℚ) ≤ x * 10 ^ p + 1/2 := h
    _ = (x + 1 / (2 * 10 ^ p)) * 10 ^ p := by field_simp; ring

theorem le_pyRound (x : ℚ) (p : ℕ) : x - 1 / (2 * 10 ^ p) ≤ pyRound x p := by
  unfold pyRound
  have h10 : (0:ℚ) < 10 ^ p := by positivity
  rw [le_div_iff₀ h10]
  have h := le_halfEven (x * 10 ^ p)
  calc (x - 1 / (2 * 10 ^ p)) * 10 ^ p = x * 10 ^ p - 1/2 := by field_simp; ring
    _ ≤ (halfEven (x * 10 ^ p) : ℚ) := h

/-- Rounding an already-rounded value changes nothing. -/
theorem pyRound_pyRound (x : ℚ) (p : ℕ) : pyRound (pyRound x p) p = pyRound x p := by
  unfold pyRound
  have h10 : (10:ℚ) ^ p ≠ 0 := by positivity
  rw [div_mul_cancel₀ _ h10, halfEven_intCast]

/-! ### TradeType and Trade

Modelled from the spec: the module tensortrade.trades is not among the
three source files; the spec fixes TradeType as a closed set of exactly 4
variants in the enumeration order LimitBuy, MarketBuy, LimitSell,
MarketSell, with is_buy / is_sell partitioning the set, and Trade as an
immutable record of symbol, side, amount, price. -/

inductive TradeType where
  | LimitBuy
  | MarketBuy
  | LimitSell
  | MarketSell
  deriving DecidableEq

/-- Whether the order kind is a buy variant. -/
def TradeType.is_buy : TradeType → Bool
  | .LimitBuy => true
  | .MarketBuy => true
  | _ => false

/-- Whether the order kind is a sell variant. -/
def TradeType.is_sell : TradeType → Bool
  | .LimitSell => true
  | .MarketSell => true
  | _ => false

/-- Number of TradeType variants: len(TradeType). -/
def tradeTypeCard : ℕ := 4

/-- The Python constructor TradeType(n), defined on 0..3 in enumeration
order; it is only ever applied to action mod 4 in the embedded code. -/
def tradeTypeOf (n : ℕ) : TradeType :=
  match n with
  | 0 => .LimitBuy
  | 1 => .MarketBuy
  | 2 => .LimitSell
  | _ => .MarketSell

/-- A trade as produced by the schemes (symbol, side, amount, price). -/
structure Trade where
  symbol : String
  side : TradeType
  amount : ℚ
  price : ℚ
  deriving DecidableEq

/-! ### Exchange (tensortrade/exchanges/exchange.py)

The abstract data-access surface the schemes read, plus the derived
helpers defined concretely in exchange.py. The portfolio dict is
embedded as an association list (iteration order = insertion order). -/

structure Exchange where
  balance : ℚ
  initial_balance : ℚ
  portfolio : List (String × ℚ)
  base_instrument : String
  current_price : String → ℚ
  base_precision : ℕ
  instrument_precision : ℕ
  min_trade_amount : ℚ
  max_trade_amount : ℚ
  min_trade_price : ℚ
  max_trade_price : ℚ

namespace Exchange

/-- Exchange.instrument_balance: portfolio[symbol] if present else 0. -/
def instrument_balance (ex : Exchange) (symbol : String) : ℚ :=
  match ex.portfolio.find? (fun p => p.1 == symbol) with
  | some p => p.2
  | none => 0

/-- Exchange.net_worth: starts from balance, returns it at once for an
empty portfolio, otherwise adds price * amount for every non-base
symbol in iteration order. -/
def net_worth (ex : Exchange) : ℚ :=
  if ex.portfolio = [] then ex.balance
  else
    ex.portfolio.foldl
      (fun acc p => if p.1 = ex.base_instrument then acc else acc + ex.current_price p.1 * p.2)
      ex.balance

/-- Exchange.profit_loss_percent: (net_worth / initial_balance) * 100. -/
def profit_loss_percent (ex : Exchange) : ℚ :=
  ex.net_worth / ex.initial_balance * 100

/-- Exchange _bind_trade_price: clamp a price into the configured
price bounds, all values rounded to base_precision first. -/
def bind_trade_price (ex : Exchange) (price : ℚ) : ℚ :=
  min (pyRound ex.max_trade_price ex.base_precision)
    (max (pyRound price ex.base_precision)
      (pyRound ex.min_trade_price ex.base_precision))

/-- Exchange _bind_trade_amount: clamp an amount into the configured
amount bounds, all values rounded to instrument_precision first. -/
def bind_trade_amount (ex : Exchange) (amount : ℚ) : ℚ :=
  min (pyRound ex.max_trade_amount ex.instrument_precision)
    (max (pyRound amount ex.instrument_precision)
      (pyRound ex.min_trade_amount ex.instrument_precision))

/-- The spec formula for net worth, written as the spec states it:
balance plus the sum over every portfolio symbol different from the
base instrument of current price times held amount. -/
def netWorthSpec (ex : Exchange) : ℚ :=
  ex.balance +
    ((ex.portfolio.filter (fun p => p.1 != ex.base_instrument)).map
      (fun p => ex.current_price p.1 * p.2)).sum

end Exchange

/-! ### DiscreteActions (tensortrade/actions/discrete_actions.py)

The scheme holds only configuration: n_actions and the traded symbol.
Its get_trade reads the exchange and writes nothing, which the embedding
records by returning the (unchanged) scheme state with the Trade. -/

structure DiscreteActions where
  n_actions : ℕ
  instrument_symbol : String
  deriving DecidableEq

namespace DiscreteActions

/-- DiscreteActions.n_splits: n_actions / len(TradeType), true division. -/
def n_splits (s : DiscreteActions) : ℚ :=
  (s.n_actions : ℚ) / (tradeTypeCard : ℚ)

/-- DiscreteActions _get_trade_type: TradeType(action % len(TradeType)). -/
def get_trade_type (action : ℕ) : TradeType :=
  tradeTypeOf (action % tradeTypeCard)

/-- DiscreteActions _get_trade_amount:
int(action / len(TradeType)) * (1 / n_splits) + (1 / n_splits). -/
def get_trade_amount (s : DiscreteActions) (action : ℕ) : ℚ :=
  ((action / tradeTypeCard : ℕ) : ℚ) * (1 / s.n_splits) + 1 / s.n_splits

/-- DiscreteActions.get_trade: decode side and fraction, then size the
amount off the balance (buys, with the 2 percent reserve) or the held
instrument amount (sells), rounding to instrument_precision. -/
def get_trade (s : DiscreteActions) (ex : Exchange) (action : ℕ) :
    Trade × DiscreteActions :=
  let trade_type := get_trade_type action
  let trade_amount := get_trade_amount s action
  let amount_held := ex.instrument_balance s.instrument_symbol
  let current_price := ex.current_price s.instrument_symbol
  let balance := ex.balance
  let trade_amount :=
    if trade_type.is_buy then
      pyRound (balance * (98/100) * trade_amount / current_price) ex.instrument_precision
    else if trade_type.is_sell then
      pyRound (amount_held * trade_amount) ex.instrument_precision
    else trade_amount
  (⟨s.instrument_symbol, trade_type, trade_amount, current_price⟩, s)

end DiscreteActions

/-! ### TargetStopActionStrategy (tensortrade/actions/target_stop_action_strategy.py)

State: a step counter and the trading_history ledger. A ledger entry is
the Python list [current_step, current_price, amount,
profit_target_percent, stop_loss_percent] appended at line 112. -/

structure LedgerEntry where
  opened_at_step : ℕ
  entry_price : ℚ
  amount : ℚ
  profit_target_percent : ℚ
  stop_loss_percent : ℚ
  deriving DecidableEq

structure TargetStopConfig where
  instrument_symbol : String
  position_size : ℕ
  profit_target_range_len : ℕ
  stop_loss_range_len : ℕ
  timeout_steps : ℕ
  deriving DecidableEq

structure TargetStopState where
  current_step : ℕ
  trading_history : List LedgerEntry
  deriving DecidableEq

namespace TargetStop

/-- TargetStopActionStrategy.reset: current_step to 0, empty ledger. -/
def reset : TargetStopState := ⟨0, []⟩

/-- Line 108 tests `TradeType is TradeType.MARKET_BUY or TradeType is
TradeType.LIMIT_BUY`: it compares the enum class object itself, not the
decoded trade_type, with two members, so the Python `is` test is False on
both sides and the whole condition is always False. -/
def typeRefIsBuyTest : Bool := false

/-- TargetStopActionStrategy.get_trade.

Line 93 reads `for trade, idx in enumerate(self.trading_history):`, which
binds `trade` to the integer index of each pair and `idx` to the ledger
entry. The first statement of the body subscripts that integer
(`trade[1]` at line 94), so on a non-empty ledger the first iteration
raises TypeError before any exit condition, deletion or return is
reached; on an empty ledger the loop body never runs. The mutation of
current_step at line 91 happens before the loop, so it survives either
way, which the embedding records by returning the state next to the
Except result. -/
def get_trade (cfg : TargetStopConfig) (s : TargetStopState) (ex : Exchange)
    (action : ℕ) : Except String Trade × TargetStopState :=
  let n_pt_splits : ℚ := (cfg.profit_target_range_len : ℚ)
  let profit_target_percent : ℚ := (action : ℚ) * n_pt_splits / n_pt_splits + 1 / n_pt_splits
  let n_sl_splits : ℚ := (cfg.stop_loss_range_len : ℚ)
  let stop_loss_percent : ℚ := (action : ℚ) * n_sl_splits / n_sl_splits + 1 / n_sl_splits
  let n_splits : ℚ := (cfg.position_size : ℚ) / (tradeTypeCard : ℚ)
  let trade_type := tradeTypeOf (action % tradeTypeCard)
  let trade_amount : ℚ := ((action / tradeTypeCard : ℕ) : ℚ) * (1 / n_splits) + 1 / n_splits
  let current_price := pyRound (ex.current_price cfg.instrument_symbol) ex.base_precision
  let amount := ex.instrument_balance cfg.instrument_symbol
  let current_step := s.current_step
  let s' : TargetStopState := ⟨s.current_step + 1, s.trading_history⟩
  match s.trading_history with
  | _ :: _ =>
    (Except.error "TypeError: int object is not subscriptable", s')
  | [] =>
    if typeRefIsBuyTest then
      let amount := pyRound (ex.balance * (99/100) * trade_amount / current_price)
        ex.instrument_precision
      let s'' : TargetStopState := ⟨s'.current_step,
        s'.trading_history ++
          [⟨current_step, current_price, amount, profit_target_percent, stop_loss_percent⟩]⟩
      (Except.ok ⟨cfg.instrument_symbol, trade_type, amount, current_price⟩, s'')
    else
      (Except.ok ⟨cfg.instrument_symbol, trade_type, amount, current_price⟩, s')

end TargetStop

/-! ### Further rounding lemmas -/

theorem pyRound_intCast (k : ℤ) (p : ℕ) : pyRound (k : ℚ) p = k := by
  unfold pyRound
  have h : ((k:ℚ) * 10 ^ p) = ((k * 10 ^ p : ℤ) : ℚ) := by push_cast; ring
  rw [h, halfEven_intCast]
  have h10 : (10:ℚ) ^ p ≠ 0 := by positivity
  push_cast
  field_simp

theorem pyRound_fix_min {a b : ℚ} {p : ℕ} (ha : pyRound a p = a) (hb : pyRound b p = b) :
    pyRound (min a b) p = min a b := by
  rcases le_total a b with h | h
  · rw [min_eq_left h]; exact ha
  · rw [min_eq_right h]; exact hb

theorem pyRound_fix_max {a b : ℚ} {p : ℕ} (ha : pyRound a p = a) (hb : pyRound b p = b) :
    pyRound (max a b) p = max a b := by
  rcases le_total a b with h | h
  · rw [max_eq_right h]; exact hb
  · rw [max_eq_left h]; exact ha

/-- Applying the clamp min A (max _ C) to its own output is the identity. -/
theorem min_max_clamp_idem (A B C : ℚ) :
    min A (max (min A (max B C)) C) = min A (max B C) := by
  rcases le_total C A with h | h
  · have h1 : C ≤ min A (max B C) := le_min h (le_max_right _ _)
    rw [max_eq_left h1, min_eq_right (min_le_left A (max B C))]
  · have h2 : A ≤ max B C := le_trans h (le_max_right _ _)
    rw [min_eq_left h2, max_eq_right h, min_eq_left h]

/-- The rounded clamp output is itself a rounded value. -/
theorem pyRound_bind_trade_price (ex : Exchange) (x : ℚ) :
    pyRound (ex.bind_trade_price x) ex.base_precision = ex.bind_trade_price x :=
  pyRound_fix_min (pyRound_pyRound _ _)
    (pyRound_fix_max (pyRound_pyRound _ _) (pyRound_pyRound _ _))

theorem pyRound_bind_trade_amount (ex : Exchange) (x : ℚ) :
    pyRound (ex.bind_trade_amount x) ex.instrument_precision = ex.bind_trade_amount x :=
  pyRound_fix_min (pyRound_pyRound _ _)
    (pyRound_fix_max (pyRound_pyRound _ _) (pyRound_pyRound _ _))

/-! ### Concrete exchange states and scheme configurations used to
evaluate the embedded code at specific inputs. All bounds and prices are
integers and both precisions are 0, so every rounding step is exact. -/

def exA : Exchange :=
  ⟨1000, 1000, [("BTC", 10)], "USD", fun _ => 100, 0, 0, 1, 1000000, 1, 100000000⟩

def exB : Exchange :=
  ⟨1000, 1000, [("BTC", 3)], "USD", fun _ => 100, 0, 0, 1, 1000000, 1, 100000000⟩

def exZB : Exchange :=
  ⟨0, 1000, [("BTC", 10)], "USD", fun _ => 100, 0, 0, 1, 1000000, 1, 100000000⟩

def cfgA : TargetStopConfig := ⟨"BTC", 20, 20, 20, 1000⟩

theorem pyRound_hundred : pyRound (100:ℚ) 0 = 100 := by
  have h := pyRound_intCast 100 0
  norm_num at h
  exact h

/-! ### Claims -/

/-- C6: for every action code and fixed exchange state, the stateless
scheme get_trade is pure: the call leaves the scheme state unchanged,
and a second call with the same action code against the unchanged
exchange state returns the identical Trade. -/
theorem discrete_get_trade_pure (s : DiscreteActions) (ex : Exchange) (action : ℕ) :
    (DiscreteActions.get_trade s ex action).2 = s ∧
    (DiscreteActions.get_trade (DiscreteActions.get_trade s ex action).2 ex action).1
      = (DiscreteActions.get_trade s ex action).1 :=
  ⟨rfl, rfl⟩

/-- C9: every call of the position-tracking scheme get_trade increments
current_step by exactly one, on every branch: the exit-scan branch (which
raises after the increment), the dead buy branch, and the fall-through. -/
theorem target_stop_step_increments (cfg : TargetStopConfig) (s : TargetStopState)
    (ex : Exchange) (action : ℕ) :
    ((TargetStop.get_trade cfg s ex action).2).current_step = s.current_step + 1 := by
  obtain ⟨step, hist⟩ := s
  cases hist with
  | nil => simp [TargetStop.get_trade, TargetStop.typeRefIsBuyTest]
  | cons e rest => simp [TargetStop.get_trade]

/-- C4: in both schemes, every Trade that a get_trade call returns has
side TradeType(action mod 4), the variants taken in the enumeration
order LimitBuy, MarketBuy, LimitSell, MarketSell; for the
position-tracking scheme this is conditional on the call actually
returning a Trade (a non-empty ledger makes it raise instead). -/
theorem trade_side_eq_action_mod_four :
    (∀ (s : DiscreteActions) (ex : Exchange) (a : ℕ),
      (DiscreteActions.get_trade s ex a).1.side = tradeTypeOf (a % 4)) ∧
    (∀ (cfg : TargetStopConfig) (s : TargetStopState) (ex : Exchange) (a : ℕ)
      (t : Trade) (s2 : TargetStopState),
      TargetStop.get_trade cfg s ex a = (Except.ok t, s2) → t.side = tradeTypeOf (a % 4)) := by
  constructor
  · intro s ex a
    rfl
  · intro cfg s ex a t s2 h
    obtain ⟨step, hist⟩ := s
    cases hist with
    | nil =>
      simp [TargetStop.get_trade, TargetStop.typeRefIsBuyTest] at h
      rw [← h.1]
      rfl
    | cons e rest =>
      simp [TargetStop.get_trade] at h

/-- Witness for C4 at a concrete input. -/
theorem trade_side_eq_action_mod_four_witness :
    (DiscreteActions.get_trade ⟨20, "BTC"⟩ exA 7).1.side = tradeTypeOf (7 % 4) ∧
    Trade.side ⟨"BTC", TradeType.LimitSell, 10, 100⟩ = tradeTypeOf (2 % 4) := by
  refine ⟨trade_side_eq_action_mod_four.1 ⟨20, "BTC"⟩ exA 7, ?_⟩
  apply trade_side_eq_action_mod_four.2 cfgA ⟨0, []⟩ exA 2 _ ⟨1, []⟩
  simp [TargetStop.get_trade, TargetStop.typeRefIsBuyTest, Exchange.instrument_balance,
    exA, cfgA, List.find?, tradeTypeOf, tradeTypeCard]
  norm_num [pyRound_hundred]

/-- C10: when the exit scan finds no eligible ledger entry (with this
code that is exactly the empty-ledger case, since a non-empty ledger
raises inside the scan) and the decoded side is a sell variant, the call
returns a Trade with the decoded side, the full current instrument
balance as amount, and the current price rounded to base_precision, and
the ledger is unchanged. -/
theorem target_stop_sell_fallthrough (cfg : TargetStopConfig) (s : TargetStopState)
    (ex : Exchange) (a : ℕ)
    (hledger : s.trading_history = [])
    (hsell : (tradeTypeOf (a % 4)).is_sell = true) :
    TargetStop.get_trade cfg s ex a =
      (Except.ok ⟨cfg.instrument_symbol, tradeTypeOf (a % 4),
        ex.instrument_balance cfg.instrument_symbol,
        pyRound (ex.current_price cfg.instrument_symbol) ex.base_precision⟩,
       ⟨s.current_step + 1, s.trading_history⟩) := by
  obtain ⟨step, hist⟩ := s
  simp only at hledger
  subst hledger
  simp [TargetStop.get_trade, TargetStop.typeRefIsBuyTest]
  rfl

/-- Witness for C10 at a concrete input. -/
theorem target_stop_sell_fallthrough_witness :
    (⟨0, []⟩ : TargetStopState).trading_history = [] ∧
    (tradeTypeOf (2 % 4)).is_sell = true ∧
    TargetStop.get_trade cfgA ⟨0, []⟩ exA 2 =
      (Except.ok ⟨cfgA.instrument_symbol, tradeTypeOf (2 % 4),
        exA.instrument_balance cfgA.instrument_symbol,
        pyRound (exA.current_price cfgA.instrument_symbol) exA.base_precision⟩,
       ⟨1, []⟩) :=
  ⟨rfl, by decide, target_stop_sell_fallthrough cfgA ⟨0, []⟩ exA 2 rfl (by decide)⟩

/-- C1: a get_trade call on a non-empty ledger does not scan the ledger
and emit a MarketSell as the spec describes; line 93 unpacks each
enumerate pair as (trade, idx), binding trade to the integer index, and
the first exit-condition test subscripts that integer, raising TypeError
on the very first entry. Evaluated here on a one-entry ledger. -/
theorem target_stop_exit_scan_raises :
    (TargetStop.get_trade cfgA ⟨5, [⟨0, 100, 1, 1, 1⟩]⟩ exA 0).1
        = Except.error "TypeError: int object is not subscriptable" ∧
    ((TargetStop.get_trade cfgA ⟨5, [⟨0, 100, 1, 1, 1⟩]⟩ exA 0).2).trading_history
        = [⟨0, 100, 1, 1, 1⟩] := by
  constructor <;> simp [TargetStop.get_trade]

/-- C2: with an empty ledger and a buy-decoded action the spec says the
scheme sizes the amount to round(balance * 0.99 * fraction / price,
instrument_precision) and appends a ledger entry; here with balance 1000,
price 100, fraction 1/5 that would be amount 1.98 rounded and a one-entry
ledger, but the evaluated call returns the held instrument balance 3 as
amount and leaves the ledger empty, because line 108 tests the TradeType
class object itself (always False) instead of the decoded trade_type. -/
theorem target_stop_buy_branch_dead :
    (TargetStop.get_trade cfgA ⟨0, []⟩ exB 1).1
        = Except.ok ⟨"BTC", TradeType.MarketBuy, 3, 100⟩ ∧
    ((TargetStop.get_trade cfgA ⟨0, []⟩ exB 1).2).trading_history = [] := by
  constructor
  · simp [TargetStop.get_trade, TargetStop.typeRefIsBuyTest, Exchange.instrument_balance,
      exB, cfgA, List.find?, tradeTypeOf, tradeTypeCard]
    norm_num [pyRound_hundred]
  · simp [TargetStop.get_trade, TargetStop.typeRefIsBuyTest]

/-- Counterexample to C3: with n_actions = 20, action code 6 decodes to
6 mod 4 = 2, the third variant of the 4-variant enumeration, LimitSell,
so the returned Trade side is not a buy variant. -/
theorem discrete_action_six_not_buy :
    (DiscreteActions.get_trade ⟨20, "BTC"⟩ exA 6).1.side = TradeType.LimitSell ∧
    ((DiscreteActions.get_trade ⟨20, "BTC"⟩ exA 6).1.side.is_buy = false) :=
  ⟨rfl, rfl⟩

/-- C3 amended: with n_actions = 20, action code 1 decodes to a buy
variant with fraction 1/5; action code 6 decodes to a sell variant
(LimitSell) with fraction 2/5; and the bucket boundaries repeat every 4
action codes: codes a and a + 4 decode to the same side, with fractions
one bucket (1/5) apart. -/
theorem discrete_n20_decoding :
    (∀ ex : Exchange, ((DiscreteActions.get_trade ⟨20, "BTC"⟩ ex 1).1.side.is_buy = true)) ∧
    DiscreteActions.get_trade_amount ⟨20, "BTC"⟩ 1 = 1/5 ∧
    (∀ ex : Exchange, ((DiscreteActions.get_trade ⟨20, "BTC"⟩ ex 6).1.side.is_sell = true)) ∧
    DiscreteActions.get_trade_amount ⟨20, "BTC"⟩ 6 = 2/5 ∧
    (∀ a : ℕ, DiscreteActions.get_trade_type (a + 4) = DiscreteActions.get_trade_type a ∧
      DiscreteActions.get_trade_amount ⟨20, "BTC"⟩ (a + 4)
        = DiscreteActions.get_trade_amount ⟨20, "BTC"⟩ a + 1/5) := by
  refine ⟨fun ex => rfl, ?_, fun ex => rfl, ?_, fun a => ⟨?_, ?_⟩⟩
  · norm_num [DiscreteActions.get_trade_amount, DiscreteActions.n_splits, tradeTypeCard]
  · norm_num [DiscreteActions.get_trade_amount, DiscreteActions.n_splits, tradeTypeCard]
  · unfold DiscreteActions.get_trade_type tradeTypeCard
    rw [Nat.add_mod_right]
  · unfold DiscreteActions.get_trade_amount tradeTypeCard
    rw [Nat.add_div_right a (by norm_num : 0 < 4)]
    norm_num [DiscreteActions.n_splits, tradeTypeCard]
    ring

/-- C8: net worth equals the balance plus the sum of current price times
held amount over every portfolio symbol other than the base instrument,
and profit_loss_percent equals 100 * net_worth / initial_balance. -/
theorem net_worth_formula (ex : Exchange) :
    ex.net_worth = Exchange.netWorthSpec ex ∧
    ex.profit_loss_percent = 100 * ex.net_worth / ex.initial_balance := by
  constructor
  · unfold Exchange.net_worth Exchange.netWorthSpec
    by_cases h : ex.portfolio = []
    · simp [h]
    · rw [if_neg h]
      have hfold : ∀ (l : List (String × ℚ)) (acc : ℚ),
          l.foldl (fun acc p =>
              if p.1 = ex.base_instrument then acc else acc + ex.current_price p.1 * p.2) acc
            = acc + ((l.filter (fun p => p.1 != ex.base_instrument)).map
                (fun p => ex.current_price p.1 * p.2)).sum := by
        intro l
        induction l with
        | nil => intro acc; simp
        | cons p rest ih =>
          intro acc
          by_cases hp : p.1 = ex.base_instrument
          · simp [hp, ih]
          · simp [List.filter_cons, hp, ih]
            ring
      exact hfold ex.portfolio ex.balance
  · unfold Exchange.profit_loss_percent
    ring

/-- C7: whenever the rounded configured bounds are ordered, the bound
functions return a value inside [round(min, precision),
round(max, precision)], and both functions are idempotent: applying one
to its own output returns the same value. -/
theorem bind_trade_clamps (ex : Exchange) (p a : ℚ)
    (hp : pyRound ex.min_trade_price ex.base_precision
        ≤ pyRound ex.max_trade_price ex.base_precision)
    (ha : pyRound ex.min_trade_amount ex.instrument_precision
        ≤ pyRound ex.max_trade_amount ex.instrument_precision) :
    (pyRound ex.min_trade_price ex.base_precision ≤ ex.bind_trade_price p ∧
      ex.bind_trade_price p ≤ pyRound ex.max_trade_price ex.base_precision) ∧
    ex.bind_trade_price (ex.bind_trade_price p) = ex.bind_trade_price p ∧
    (pyRound ex.min_trade_amount ex.instrument_precision ≤ ex.bind_trade_amount a ∧
      ex.bind_trade_amount a ≤ pyRound ex.max_trade_amount ex.instrument_precision) ∧
    ex.bind_trade_amount (ex.bind_trade_amount a) = ex.bind_trade_amount a := by
  refine ⟨⟨?_, ?_⟩, ?_, ⟨?_, ?_⟩, ?_⟩
  · exact le_min hp (le_max_right _ _)
  · exact min_le_left _ _
  · have h := pyRound_bind_trade_price ex p
    unfold Exchange.bind_trade_price at h ⊢
    rw [h]
    exact min_max_clamp_idem _ _ _
  · exact le_min ha (le_max_right _ _)
  · exact min_le_left _ _
  · have h := pyRound_bind_trade_amount ex a
    unfold Exchange.bind_trade_amount at h ⊢
    rw [h]
    exact min_max_clamp_idem _ _ _

/-- Witness for C7 at a concrete exchange configuration and inputs. -/
theorem bind_trade_clamps_witness :
    (pyRound exA.min_trade_price exA.base_precision
        ≤ pyRound exA.max_trade_price exA.base_precision) ∧
    (pyRound exA.min_trade_amount exA.instrument_precision
        ≤ pyRound exA.max_trade_amount exA.instrument_precision) ∧
    ((pyRound exA.min_trade_price exA.base_precision ≤ exA.bind_trade_price 500 ∧
      exA.bind_trade_price 500 ≤ pyRound exA.max_trade_price exA.base_precision) ∧
    exA.bind_trade_price (exA.bind_trade_price 500) = exA.bind_trade_price 500 ∧
    (pyRound exA.min_trade_amount exA.instrument_precision ≤ exA.bind_trade_amount 3 ∧
      exA.bind_trade_amount 3 ≤ pyRound exA.max_trade_amount exA.instrument_precision) ∧
    exA.bind_trade_amount (exA.bind_trade_amount 3) = exA.bind_trade_amount 3) := by
  have h1 : pyRound exA.min_trade_price exA.base_precision
      ≤ pyRound exA.max_trade_price exA.base_precision := by
    show pyRound (1:ℚ) 0 ≤ pyRound (100000000:ℚ) 0
    have ha := pyRound_intCast 1 0
    have hb := pyRound_intCast 100000000 0
    norm_num at ha hb
    rw [ha, hb]
    norm_num
  have h2 : pyRound exA.min_trade_amount exA.instrument_precision
      ≤ pyRound exA.max_trade_amount exA.instrument_precision := by
    show pyRound (1:ℚ) 0 ≤ pyRound (1000000:ℚ) 0
    have ha := pyRound_intCast 1 0
    have hb := pyRound_intCast 1000000 0
    norm_num at ha hb
    rw [ha, hb]
    norm_num
  exact ⟨h1, h2, bind_trade_clamps exA 500 3 h1 h2⟩

/-! ### Fraction bounds for the discretized sizing -/

theorem get_trade_amount_nonneg (s : DiscreteActions) (a : ℕ) :
    0 ≤ DiscreteActions.get_trade_amount s a := by
  unfold DiscreteActions.get_trade_amount DiscreteActions.n_splits tradeTypeCard
  positivity

theorem get_trade_amount_le_one (s : DiscreteActions) (a : ℕ)
    (hdvd : (4 : ℕ) ∣ s.n_actions) (ha : a < s.n_actions) :
    DiscreteActions.get_trade_amount s a ≤ 1 := by
  obtain ⟨k, hk⟩ := hdvd
  have hk0 : 0 < k := by omega
  have hdivlt : a / 4 < k := by omega
  have hns : s.n_splits = (k : ℚ) := by
    unfold DiscreteActions.n_splits tradeTypeCard
    rw [hk]
    push_cast
    ring
  unfold DiscreteActions.get_trade_amount tradeTypeCard
  rw [hns]
  have hkq : (0:ℚ) < (k:ℚ) := by exact_mod_cast hk0
  have heq : ((a / 4 : ℕ) : ℚ) * (1 / (k:ℚ)) + 1 / (k:ℚ)
      = (((a / 4 : ℕ) : ℚ) + 1) / (k:ℚ) := by ring
  rw [heq, div_le_one hkq]
  have hle : a / 4 + 1 ≤ k := hdivlt
  exact_mod_cast hle

/-- C5: for the stateless scheme the buy-sized amount times the price
stays within balance * 0.98 plus the half-ulp rounding tolerance at
instrument_precision, for every in-range buy-decoded action (with the
4-divisibility the bucket design intends). For the position-tracking
scheme the claimed 0.99 bound fails: the 0.99 sizing at line 109 sits in
the unreachable branch guarded by the class-object test of line 108, so
the returned buy amount is the held instrument balance; evaluated at
balance 0, held amount 10, price 100 the product 1000 exceeds the
claimed bound 50. -/
theorem buy_sizing_bound :
    (∀ (s : DiscreteActions) (ex : Exchange) (a : ℕ),
      (4 : ℕ) ∣ s.n_actions → a < s.n_actions →
      (DiscreteActions.get_trade_type a).is_buy = true →
      0 < ex.current_price s.instrument_symbol →
      0 ≤ ex.balance →
      (DiscreteActions.get_trade s ex a).1.amount * (DiscreteActions.get_trade s ex a).1.price
        ≤ ex.balance * (98/100)
          + ex.current_price s.instrument_symbol
            * (1 / (2 * 10 ^ ex.instrument_precision))) ∧
    ((TargetStop.get_trade cfgA ⟨0, []⟩ exZB 1).1
        = Except.ok ⟨"BTC", TradeType.MarketBuy, 10, 100⟩ ∧
      (tradeTypeOf (1 % 4)).is_buy = true ∧
      ¬ ((10:ℚ) * 100 ≤ exZB.balance * (99/100)
          + exZB.current_price "BTC" * (1 / (2 * 10 ^ exZB.instrument_precision)))) := by
  constructor
  · intro s ex a hdvd ha hbuy hp hb
    have hfrac1 := get_trade_amount_le_one s a hdvd ha
    have hfrac0 := get_trade_amount_nonneg s a
    have hamount : (DiscreteActions.get_trade s ex a).1.amount
        = pyRound (ex.balance * (98/100) * DiscreteActions.get_trade_amount s a
            / ex.current_price s.instrument_symbol) ex.instrument_precision := by
      simp only [DiscreteActions.get_trade, hbuy, if_true]
    have hprice : (DiscreteActions.get_trade s ex a).1.price
        = ex.current_price s.instrument_symbol := rfl
    rw [hamount, hprice]
    set P := ex.current_price s.instrument_symbol with hP
    set F := DiscreteActions.get_trade_amount s a with hF
    set prec := ex.instrument_precision with hprec
    have h1 : pyRound (ex.balance * (98/100) * F / P) prec
        ≤ ex.balance * (98/100) * F / P + 1 / (2 * 10 ^ prec) := pyRound_le _ _
    have h2 : pyRound (ex.balance * (98/100) * F / P) prec * P
        ≤ (ex.balance * (98/100) * F / P + 1 / (2 * 10 ^ prec)) * P :=
      mul_le_mul_of_nonneg_right h1 (le_of_lt hp)
    have h3 : (ex.balance * (98/100) * F / P + 1 / (2 * 10 ^ prec)) * P
        = ex.balance * (98/100) * F + P * (1 / (2 * 10 ^ prec)) := by
      field_simp
      ring
    have h4 : ex.balance * (98/100) * F ≤ ex.balance * (98/100) :=
      mul_le_of_le_one_right (by positivity) hfrac1
    calc pyRound (ex.balance * (98/100) * F / P) prec * P
        ≤ ex.balance * (98/100) * F + P * (1 / (2 * 10 ^ prec)) := by rw [← h3]; exact h2
      _ ≤ ex.balance * (98/100) + P * (1 / (2 * 10 ^ prec)) := by linarith
  · refine ⟨?_, rfl, ?_⟩
    · simp [TargetStop.get_trade, TargetStop.typeRefIsBuyTest, Exchange.instrument_balance,
        exZB, cfgA, List.find?, tradeTypeOf, tradeTypeCard]
      norm_num [pyRound_hundred]
    · norm_num [exZB]

/-- Witness for C5 at a concrete input to the universally quantified
stateless bound. -/
theorem buy_sizing_bound_witness :
    ((4 : ℕ) ∣ (20 : ℕ)) ∧ (1 : ℕ) < 20 ∧
    (DiscreteActions.get_trade_type 1).is_buy = true ∧
    (0:ℚ) < exA.current_price "BTC" ∧ (0:ℚ) ≤ exA.balance ∧
    (DiscreteActions.get_trade ⟨20, "BTC"⟩ exA 1).1.amount
        * (DiscreteActions.get_trade ⟨20, "BTC"⟩ exA 1).1.price
      ≤ exA.balance * (98/100)
        + exA.current_price "BTC" * (1 / (2 * 10 ^ exA.instrument_precision)) := by
  refine ⟨by norm_num, by norm_num, rfl, by norm_num [exA], by norm_num [exA], ?_⟩
  exact buy_sizing_bound.1 ⟨20, "BTC"⟩ exA 1 (by norm_num) (by norm_num) rfl
    (by norm_num [exA]) (by norm_num [exA])

end TensorTrade
